import Mathlib

set_option maxRecDepth 100000

/-!
# Verification of the LLM Council backend

Shallow embedding of the `backend` package (router/dispatch, three-stage
council orchestration, ranking parser, aggregation, async job store and
webhook delivery) together with proofs about the claims of the
specification.

Conventions of the embedding:
* Python strings are Lean `String`s; character-level operations work on
  `String.toList`.
* Python dicts that are built once and then iterated are association lists
  `List (K × V)` in insertion order; `dict.get` is modelled by the first
  matching entry (keys of the dicts built by this program are distinct).
* Python floats are modelled as exact rationals `ℚ`; `round(x, 2)` is
  modelled as decimal rounding half-to-even of the exact rational value.
* Network calls are modelled by oracle functions supplied as parameters:
  a provider adapter becomes `String → List Message → Option ModelResponse`
  (`none` is the adapter's "no response"/error result).
-/

namespace LLMCouncil

/-- A chat message (`{"role": ..., "content": ...}`). -/
structure Message where
  role : String
  content : String
deriving DecidableEq, Repr

/-- A successful provider answer, as normalised by the adapters
(`content`, `provider`; usage metadata is not modelled as no claim
mentions it). -/
structure ModelResponse where
  content : String
  provider : String
deriving DecidableEq, Repr

/-- Result of `call_anthropic` (field `response`); the call can raise,
which is modelled by `Except`. -/
structure AnthropicResult where
  response : String
deriving DecidableEq, Repr

/-! ## config.py -/

/-- `config.CEREBRAS_MODEL_IDS`. -/
def CEREBRAS_MODEL_IDS : List String :=
  ["zai-glm-4.6", "zai-glm-4.7", "llama3.1-8b", "llama-3.3-70b",
   "qwen-3-32b", "gpt-oss-120b"]

/-- `anthropic_client.ANTHROPIC_MODEL_MAP`. -/
def ANTHROPIC_MODEL_MAP : List (String × String) :=
  [("anthropic/claude-opus-4.5", "claude-opus-4-20250514"),
   ("anthropic/claude-sonnet-4.5", "claude-sonnet-4-20250514"),
   ("anthropic/claude-3.5-sonnet", "claude-3-5-sonnet-20241022"),
   ("anthropic/claude-3.5-haiku", "claude-3-5-haiku-20241022"),
   ("claude-opus-4.5", "claude-opus-4-20250514"),
   ("claude-sonnet-4.5", "claude-sonnet-4-20250514")]

/-- `config.OPENROUTER_FALLBACK_MAP` (council id → OpenRouter id). -/
def OPENROUTER_FALLBACK_MAP : List (String × String) :=
  [("anthropic/claude-opus-4.6", "anthropic/claude-opus-4-6"),
   ("fireworks/kimi-k2.5", "moonshotai/kimi-k2.5"),
   ("fireworks/glm-5", "z-ai/glm-5"),
   ("zai-glm-4.7", "z-ai/glm-4.7"),
   ("z-ai/glm-5", "z-ai/glm-5"),
   ("google/gemini-3-flash", "google/gemini-2.0-flash-001"),
   ("google/gemini-3-pro", "google/gemini-2.5-pro-preview-06-05"),
   ("openai/gpt-5.2", "openai/gpt-5.2"),
   ("x-ai/grok-4", "x-ai/grok-4"),
   ("moonshot/kimi-k2.5", "moonshotai/kimi-k2.5"),
   ("deepseek/deepseek-chat", "deepseek/deepseek-chat")]

/-- `config.DEFAULT_COUNCIL_MODELS`; `COUNCIL_MODELS` equals it unless
overridden through the environment, which the embedding fixes to the
default configuration. -/
def COUNCIL_MODELS : List String :=
  ["openai/gpt-5.2", "anthropic/claude-opus-4.6", "fireworks/kimi-k2.5",
   "fireworks/glm-5", "google/gemini-3-pro-preview",
   "deepseek/deepseek-v3.2", "x-ai/grok-4.1-fast"]

/-- `config.DEFAULT_CHAIRMAN_MODEL` (= `CHAIRMAN_MODEL` without env override). -/
def CHAIRMAN_MODEL : String := "anthropic/claude-opus-4.6"

/-- Python `a.startswith(b)`, computed on the character lists. -/
def strStartsWith (s p : String) : Bool :=
  p.toList.isPrefixOf s.toList

/-- `config.is_cerebras_model`. -/
def is_cerebras_model (model_id : String) : Bool :=
  CEREBRAS_MODEL_IDS.contains model_id

/-- `anthropic_client.is_anthropic_model`. -/
def is_anthropic_model (model_id : String) : Bool :=
  strStartsWith model_id "anthropic/" || strStartsWith model_id "claude-" ||
    (ANTHROPIC_MODEL_MAP.map Prod.fst).contains model_id

/-- `config.get_openrouter_fallback` (`OPENROUTER_FALLBACK_MAP.get(model_id)`). -/
def get_openrouter_fallback (model_id : String) : Option String :=
  (OPENROUTER_FALLBACK_MAP.find? (fun kv => kv.1 == model_id)).map Prod.snd

/-! ## Provider oracles

The network adapters (`openrouter.query_model`, `cerebras.query_cerebras_model`,
`anthropic_client.call_anthropic`) are I/O; a run of the system is
parameterised by their outcomes. -/

/-- Outcomes of the three provider adapters used by `council.py` for one run. -/
structure Providers where
  /-- `cerebras.query_cerebras_model model messages …` -/
  cerebras : String → List Message → Option ModelResponse
  /-- `anthropic_client.call_anthropic model prompt …`; `Except.error` models
  a raised exception. -/
  anthropic : String → String → Except String AnthropicResult
  /-- `openrouter.query_model model messages …` -/
  openrouter : String → List Message → Option ModelResponse

/-- One provider call issued by the router, for tracing dispatch behaviour. -/
inductive ProviderCall where
  | cerebras (model_id : String)
  | anthropic (model_id : String)
  | openrouter (model_id : String)
deriving DecidableEq, Repr

/-- The prompt the anthropic branch extracts:
`messages[-1].get("content", "") if messages else ""`. -/
def lastContent (messages : List Message) : String :=
  match messages.getLast? with
  | some m => m.content
  | none => ""

/-- The response dict built by the anthropic branch of `query_single_model`
(and by `query_anthropic_single`): content from `result["response"]`,
provider `"anthropic"`; `none` when `call_anthropic` raised. -/
def anthropicWrapped (P : Providers) (model_id : String)
    (messages : List Message) : Option ModelResponse :=
  match P.anthropic model_id (lastContent messages) with
  | .ok r => some ⟨r.response, "anthropic"⟩
  | .error _ => none

/-- `council.query_single_model`, instrumented with the list of provider
calls it issues (in order). -/
def query_single_model (P : Providers) (model_id : String)
    (messages : List Message) : Option ModelResponse × List ProviderCall :=
  if is_cerebras_model model_id then
    (P.cerebras model_id messages, [ProviderCall.cerebras model_id])
  else if is_anthropic_model model_id then
    (anthropicWrapped P model_id messages, [ProviderCall.anthropic model_id])
  else
    (P.openrouter model_id messages, [ProviderCall.openrouter model_id])

/-! ## Python dict semantics

`query_models_parallel` merges per-provider result dicts with
`results.update(pr)`; a dict keeps the first-insertion position of a key
and its latest value. -/

/-- Insert `(k, v)` into an association list with Python-dict semantics:
an existing key keeps its position and gets the new value, a new key is
appended. -/
def dictInsert (l : List (String × α)) (k : String) (v : α) :
    List (String × α) :=
  if l.any (fun kv => kv.1 == k) then
    l.map (fun kv => if kv.1 == k then (kv.1, v) else kv)
  else
    l ++ [(k, v)]

/-- Build a Python dict (as an association list in key-insertion order)
from a sequence of key/value pairs. -/
def dictOfList (l : List (String × α)) : List (String × α) :=
  l.foldl (fun acc kv => dictInsert acc kv.1 kv.2) []

/-- `dict.get(k)`: value of the first (unique) entry with key `k`. -/
def dictGet (l : List (String × α)) (k : String) : Option α :=
  (l.find? (fun kv => kv.1 == k)).map Prod.snd

/-! ## council.query_models_parallel and the three stages -/

/-- The per-model result produced inside the provider group that
`query_models_parallel` routes `m` to. -/
def responseFor (P : Providers) (m : String) (messages : List Message) :
    Option ModelResponse :=
  if is_cerebras_model m then P.cerebras m messages
  else if is_anthropic_model m then anthropicWrapped P m messages
  else P.openrouter m messages

/-- `council.query_models_parallel`: split the ids into the cerebras,
anthropic and openrouter groups (in that order), query each group in
parallel (each group's dict maps each id of the group, in group order, to
its adapter's result) and merge the group dicts with `results.update`. -/
def query_models_parallel (P : Providers) (model_ids : List String)
    (messages : List Message) : List (String × Option ModelResponse) :=
  let cerebras_ids := model_ids.filter is_cerebras_model
  let anthropic_ids := model_ids.filter is_anthropic_model
  let openrouter_ids := model_ids.filter
    (fun m => !is_cerebras_model m && !is_anthropic_model m)
  dictOfList
    (cerebras_ids.map (fun m => (m, P.cerebras m messages)) ++
     anthropic_ids.map (fun m => (m, anthropicWrapped P m messages)) ++
     openrouter_ids.map (fun m => (m, P.openrouter m messages)))

/-- A stage-1 result entry (`model`, `response`, `provider`). -/
structure Stage1Entry where
  model : String
  response : String
  provider : String
deriving DecidableEq, Repr

/-- `council_models or COUNCIL_MODELS`: Python `or` falls back on `None`
and on the empty (falsy) list. -/
def resolveCouncilModels : Option (List String) → List String
  | none => COUNCIL_MODELS
  | some [] => COUNCIL_MODELS
  | some l => l

/-- `chairman_model or CHAIRMAN_MODEL` (falsy on `None` and `""`). -/
def resolveChairman : Option String → String
  | none => CHAIRMAN_MODEL
  | some "" => CHAIRMAN_MODEL
  | some s => s

/-- `council.stage1_collect_responses`: query all council models in
parallel on the user query and keep, in dict order, the entries whose
response is not `None`. -/
def stage1_collect_responses (P : Providers) (user_query : String)
    (council_models : Option (List String)) : List Stage1Entry :=
  let models := resolveCouncilModels council_models
  let messages := [Message.mk "user" user_query]
  let responses := query_models_parallel P models messages
  responses.filterMap (fun mr =>
    mr.2.map (fun resp => ⟨mr.1, resp.content, resp.provider⟩))

/-- The anonymised labels `A`, `B`, … (`chr(65 + i)`). -/
def labelChar (i : Nat) : Char := Char.ofNat (65 + i)

/-- `f"Response {label}"` for the `i`-th stage-1 entry. -/
def labelString (i : Nat) : String :=
  "Response " ++ String.singleton (labelChar i)

/-- `"\n\n".flatten(parts)` (Python `str.flatten`). -/
def strJoin (sep : String) : List String → String
  | [] => ""
  | [p] => p
  | p :: ps => p ++ sep ++ strJoin sep ps

/-- The anonymised-responses block of the ranking prompt. -/
def responsesText (stage1_results : List Stage1Entry) : String :=
  strJoin "\n\n"
    ((stage1_results.enum.map (fun ie =>
      labelString ie.1 ++ ":\n" ++ ie.2.response)))

/-- The stage-2 ranking prompt (`ranking_prompt` f-string in
`stage2_collect_rankings`). -/
def rankingPrompt (user_query : String)
    (stage1_results : List Stage1Entry) : String :=
  "You are evaluating different responses to the following question:\n\n" ++
  "Question: " ++ user_query ++ "\n\n" ++
  "Here are the responses from different models (anonymized):\n\n" ++
  responsesText stage1_results ++ "\n\n" ++
  "Your task:\n" ++
  "1. First, evaluate each response individually. For each response, explain what it does well and what it does poorly.\n" ++
  "2. Then, at the very end of your response, provide a final ranking.\n\n" ++
  "IMPORTANT: Your final ranking MUST be formatted EXACTLY as follows:\n" ++
  "- Start with the line \"FINAL RANKING:\" (all caps, with colon)\n" ++
  "- Then list the responses from best to worst as a numbered list\n" ++
  "- Each line should be: number, period, space, then ONLY the response label (e.g., \"1. Response A\")\n" ++
  "- Do not add any other text or explanations in the ranking section\n\n" ++
  "Example of the correct format for your ENTIRE response:\n\n" ++
  "Response A provides good detail on X but misses Y...\n" ++
  "Response B is accurate but lacks depth on Z...\n" ++
  "Response C offers the most comprehensive answer...\n\n" ++
  "FINAL RANKING:\n1. Response C\n2. Response A\n3. Response B\n\n" ++
  "Now provide your evaluation and ranking:"

/-! ## council.parse_ranking_from_text

The two regular expressions of the source, `\d+\.\s*Response [A-Z]` and
`Response [A-Z]`, are embedded as deterministic scanners over `List Char`
(both patterns are backtracking-free: a maximal digit run must be followed
by `.`, a maximal whitespace run by `R`). `re.findall` scans left to right
and resumes after each non-overlapping match; the scanners mirror that,
using the remaining length as structurally decreasing fuel. -/

/-- Python regex `\s` on the inputs this program handles (ASCII and Latin-1
whitespace; further Unicode space code points behave the same way and never
occur in the strings of this development). -/
def pyIsSpace (c : Char) : Bool :=
  c == ' ' || c == '\t' || c == '\n' || c == '\x0b' || c == '\x0c' ||
  c == '\r' || c == '\x1c' || c == '\x1d' || c == '\x1e' || c == '\x1f' ||
  c == '\x85' || c == '\xa0'

/-- Regex `[A-Z]`. -/
def isUpperAZ (c : Char) : Bool := 'A' ≤ c && c ≤ 'Z'

/-- Regex `\d` (ASCII digits; non-ASCII Unicode digits never occur in the
strings of this development). -/
def isDigit09 (c : Char) : Bool := '0' ≤ c && c ≤ '9'

/-- The literal `"Response "` (9 characters). -/
def RESPONSE_SP : List Char := "Response ".toList

/-- The literal `"FINAL RANKING:"` (14 characters). -/
def FINAL_MARKER : List Char := "FINAL RANKING:".toList

/-- Does the pattern `Response [A-Z]` match at the start of `s`? -/
def plainHere (s : List Char) : Bool :=
  RESPONSE_SP.isPrefixOf s &&
    (match s.drop 9 with
     | u :: _ => isUpperAZ u
     | [] => false)

/-- `re.findall(r'Response [A-Z]', s)`: left-to-right non-overlapping
matches (each of length 10); fuel-driven, `findallPlain` supplies enough
fuel. -/
def findallPlainF : Nat → List Char → List (List Char)
  | 0, _ => []
  | _, [] => []
  | fuel + 1, c :: rest =>
    if plainHere (c :: rest) then
      (c :: rest).take 10 :: findallPlainF fuel ((c :: rest).drop 10)
    else
      findallPlainF fuel rest

/-- `re.findall(r'Response [A-Z]', s)`. -/
def findallPlain (s : List Char) : List (List Char) :=
  findallPlainF s.length s

/-- `re.search(r'Response [A-Z]', s)`: the first (leftmost) match. -/
def searchPlain : List Char → Option (List Char)
  | [] => none
  | c :: rest =>
    if plainHere (c :: rest) then some ((c :: rest).take 10)
    else searchPlain rest

/-- Length of the match of `\d+\.\s*Response [A-Z]` anchored at the start
of `s`, if any: a nonempty maximal digit run, `.`, a maximal whitespace
run, then `Response ` and one uppercase letter. -/
def matchNumberedLen (s : List Char) : Option Nat :=
  let ds := s.takeWhile isDigit09
  if ds.isEmpty then none
  else
    match s.drop ds.length with
    | '.' :: r2 =>
      let ws := r2.takeWhile pyIsSpace
      if plainHere (r2.drop ws.length) then
        some (ds.length + 1 + ws.length + 10)
      else none
    | _ => none

/-- `re.findall(r'\d+\.\s*Response [A-Z]', s)`: left-to-right
non-overlapping matches; fuel-driven, `findallNumbered` supplies enough
fuel. -/
def findallNumberedF : Nat → List Char → List (List Char)
  | 0, _ => []
  | _, [] => []
  | fuel + 1, c :: rest =>
    match matchNumberedLen (c :: rest) with
    | some n => (c :: rest).take n :: findallNumberedF fuel ((c :: rest).drop n)
    | none => findallNumberedF fuel rest

/-- `re.findall(r'\d+\.\s*Response [A-Z]', s)`. -/
def findallNumbered (s : List Char) : List (List Char) :=
  findallNumberedF s.length s

/-- Index of the first occurrence of `pat` in `s`, if any. -/
def firstIdxOf (pat : List Char) : List Char → Option Nat
  | [] => if pat.isEmpty then some 0 else none
  | c :: rest =>
    if pat.isPrefixOf (c :: rest) then some 0
    else (firstIdxOf pat rest).map (· + 1)

/-- Python `pat in s` (substring containment). -/
def containsSeq (pat s : List Char) : Bool :=
  (firstIdxOf pat s).isSome

/-- Python `s.split(sep)` for a nonempty separator: fields between the
left-to-right non-overlapping occurrences of `sep`; fuel-driven, `pySplit`
supplies enough fuel. -/
def pySplitF (sep : List Char) : Nat → List Char → List (List Char)
  | 0, s => [s]
  | fuel + 1, s =>
    match firstIdxOf sep s with
    | some i => s.take i :: pySplitF sep fuel (s.drop (i + sep.length))
    | none => [s]

/-- Python `s.split(sep)` for a nonempty separator. -/
def pySplit (s sep : List Char) : List (List Char) :=
  pySplitF sep (s.length + 1) s

/-- `council.parse_ranking_from_text`, character-list level: if
`"FINAL RANKING:"` occurs, take `split("FINAL RANKING:")[1]`, extract the
numbered matches and re-search `Response [A-Z]` inside each; with no
numbered match fall back to the plain matches of that section; with no
marker fall back to the plain matches of the whole text. -/
def parseRankingChars (s : List Char) : List (List Char) :=
  if containsSeq FINAL_MARKER s then
    let parts := pySplit s FINAL_MARKER
    if 2 ≤ parts.length then
      let ranking_section := parts.getD 1 []
      let numbered := findallNumbered ranking_section
      if !numbered.isEmpty then numbered.filterMap searchPlain
      else findallPlain ranking_section
    else findallPlain s
  else findallPlain s

/-- `council.parse_ranking_from_text`. -/
def parse_ranking_from_text (s : String) : List String :=
  (parseRankingChars s.toList).map List.asString

/-! ## council.stage2_collect_rankings / stage3_synthesize_final -/

/-- A stage-2 result entry (`model`, full `ranking` text, `parsed_ranking`,
`provider`). -/
structure Stage2Entry where
  model : String
  ranking : String
  parsed_ranking : List String
  provider : String
deriving DecidableEq, Repr

/-- `council.stage2_collect_rankings`: the label map zips
`Response A`, `Response B`, … with the stage-1 entries; every council
model is asked to rank and the successful answers are kept in dict
order. Returns `(stage2_results, label_to_model)`. -/
def stage2_collect_rankings (P : Providers) (user_query : String)
    (stage1_results : List Stage1Entry)
    (council_models : Option (List String)) :
    List Stage2Entry × List (String × String) :=
  let models := resolveCouncilModels council_models
  let label_to_model := stage1_results.enum.map
    (fun ie => (labelString ie.1, ie.2.model))
  let messages := [Message.mk "user" (rankingPrompt user_query stage1_results)]
  let responses := query_models_parallel P models messages
  let stage2_results := responses.filterMap (fun mr =>
    mr.2.map (fun resp =>
      ⟨mr.1, resp.content, parse_ranking_from_text resp.content,
       resp.provider⟩))
  (stage2_results, label_to_model)

/-- A stage-3 result (`model`, `response`). -/
structure Stage3Result where
  model : String
  response : String
deriving DecidableEq, Repr

/-- The stage-1 block of the chairman prompt. -/
def stage1Text (stage1_results : List Stage1Entry) : String :=
  strJoin "\n\n" (stage1_results.map (fun r =>
    "Model: " ++ r.model ++ "\nResponse: " ++ r.response))

/-- The stage-2 block of the chairman prompt (empty when there are no
rankings). -/
def stage2Text (stage2_results : List Stage2Entry) : String :=
  if stage2_results.isEmpty then ""
  else
    "\n\nSTAGE 2 - Peer Rankings:\n" ++
    strJoin "\n\n" (stage2_results.map (fun r =>
      "Model: " ++ r.model ++ "\nRanking: " ++ r.ranking))

/-- The chairman prompt (`chairman_prompt` f-string). -/
def chairmanPrompt (user_query : String) (stage1_results : List Stage1Entry)
    (stage2_results : List Stage2Entry) : String :=
  "You are the Chairman of an LLM Council. Multiple AI models have provided responses to a user's question" ++
  (if stage2_results.isEmpty then "" else ", and then ranked each other's responses") ++
  ".\n\nOriginal Question: " ++ user_query ++
  "\n\nSTAGE 1 - Individual Responses:\n" ++ stage1Text stage1_results ++
  "\n" ++ stage2Text stage2_results ++
  "\n\nYour task as Chairman is to synthesize all of this information into a single, comprehensive, accurate answer to the user's original question. Consider:\n" ++
  "- The individual responses and their insights\n" ++
  (if stage2_results.isEmpty then "" else "- The peer rankings and what they reveal about response quality") ++
  "\n- Any patterns of agreement or disagreement\n\n" ++
  "Provide a clear, well-reasoned final answer that represents the council's collective wisdom:"

/-- `council.stage3_synthesize_final`: query the chairman through the
router; on `None` fall back to the fixed error synthesis. -/
def stage3_synthesize_final (P : Providers) (user_query : String)
    (stage1_results : List Stage1Entry) (stage2_results : List Stage2Entry)
    (chairman_model : Option String) : Stage3Result :=
  let chairman := resolveChairman chairman_model
  let messages :=
    [Message.mk "user" (chairmanPrompt user_query stage1_results stage2_results)]
  match (query_single_model P chairman messages).1 with
  | none => ⟨chairman, "Error: Unable to generate final synthesis."⟩
  | some response => ⟨chairman, response.content⟩

/-! ## council.calculate_aggregate_rankings -/

/-- An aggregate entry (`model`, `average_rank` rounded to two decimals,
`rankings_count`). -/
structure AggEntry where
  model : String
  average_rank : ℚ
  rankings_count : Nat
deriving DecidableEq, Repr

/-- `model_positions[model_name].append(position)` on a
`defaultdict(list)`: a new key is appended at the end, an existing key
gets the position appended to its list. -/
def addPos (acc : List (String × List Nat)) (model : String) (pos : Nat) :
    List (String × List Nat) :=
  if acc.any (fun kv => kv.1 == model) then
    acc.map (fun kv => if kv.1 == model then (kv.1, kv.2 ++ [pos]) else kv)
  else
    acc ++ [(model, [pos])]

/-- The inner loop of `calculate_aggregate_rankings` for one ranker:
`for position, label in enumerate(parsed_ranking, start=1)`, recording
`position` for `label_to_model[label]` and silently skipping labels
outside the map. -/
def recordRanking (label_to_model : List (String × String))
    (acc : List (String × List Nat)) (parsed : List String) :
    List (String × List Nat) :=
  parsed.enum.foldl (fun a il =>
    match dictGet label_to_model il.2 with
    | some model_name => addPos a model_name (il.1 + 1)
    | none => a) acc

/-- The `model_positions` accumulator of `calculate_aggregate_rankings`:
each ranker's text is re-parsed with `parse_ranking_from_text` and its
positions are recorded in encounter order. -/
def modelPositions (stage2_results : List Stage2Entry)
    (label_to_model : List (String × String)) : List (String × List Nat) :=
  stage2_results.foldl (fun acc r =>
    recordRanking label_to_model acc (parse_ranking_from_text r.ranking)) []

/-- Round `p / q` (`q > 0`) half-to-even to an integer (the rounding of
Python `round`), in pure integer arithmetic. -/
def roundHalfEvenInt (p q : ℤ) : ℤ :=
  let f := Int.fdiv p q
  let r := p - f * q
  if 2 * r < q then f
  else if q < 2 * r then f + 1
  else if f % 2 = 0 then f else f + 1

/-- Python `round(x, 2)` on the exact rational value of `x` (floats are
modelled as exact rationals; `round` of a float performs the decimal
rounding on the float's value). -/
def round2 (x : ℚ) : ℚ := mkRat (roundHalfEvenInt (x.num * 100) x.den) 100

/-- The aggregate entry for one model: mean of the received positions
(`sum(positions) / len(positions)`, an exact rational built with `mkRat`),
rounded to two decimals, and the number of received positions. -/
def aggEntryOf (model : String) (positions : List Nat) : AggEntry :=
  ⟨model, round2 (mkRat (positions.sum : ℤ) positions.length),
   positions.length⟩

/-- The unsorted `aggregate` list: one entry per model of
`model_positions` (in encounter order) with a nonempty position list. -/
def aggregateUnsorted (stage2_results : List Stage2Entry)
    (label_to_model : List (String × String)) : List AggEntry :=
  (modelPositions stage2_results label_to_model).filterMap (fun mp =>
    if mp.2.isEmpty then none else some (aggEntryOf mp.1 mp.2))

/-- The comparison `aggregate.sort(key=lambda x: x['average_rank'])` sorts
by: the rounded mean alone. -/
def aggLe (a b : AggEntry) : Prop := a.average_rank ≤ b.average_rank

instance : DecidableRel aggLe := fun _ _ => inferInstanceAs (Decidable (_ ≤ _))

instance : IsTotal AggEntry aggLe := ⟨fun _ _ => le_total _ _⟩

instance : IsTrans AggEntry aggLe := ⟨fun _ _ _ => le_trans⟩

/-- `council.calculate_aggregate_rankings`:
`aggregate.sort(key=lambda x: x['average_rank'])` — a stable sort on the
rounded mean alone (`insertionSort` is stable and sorts, which
characterises Python's `list.sort`). -/
def calculate_aggregate_rankings (stage2_results : List Stage2Entry)
    (label_to_model : List (String × String)) : List AggEntry :=
  (aggregateUnsorted stage2_results label_to_model).insertionSort aggLe

/-! ## council.run_full_council -/

/-- The deliberation metadata: the `{}` of the all-failed branch, or the
populated dict. -/
inductive Metadata where
  | empty
  | info (label_to_model : List (String × String))
      (aggregate_rankings : List AggEntry) (final_only : Bool)
deriving DecidableEq, Repr

/-- `council.run_full_council`: stage 1, the all-failed sentinel, the
`final_only` shortcut, stage 2, aggregation, stage 3. -/
def run_full_council (P : Providers) (user_query : String)
    (final_only : Bool) (council_models : Option (List String))
    (chairman_model : Option String) :
    List Stage1Entry × List Stage2Entry × Stage3Result × Metadata :=
  let stage1_results := stage1_collect_responses P user_query council_models
  if stage1_results.isEmpty then
    ([], [],
     ⟨resolveChairman chairman_model,
      "All models failed to respond. Please try again."⟩,
     Metadata.empty)
  else if final_only then
    let stage3_result :=
      stage3_synthesize_final P user_query stage1_results [] chairman_model
    (stage1_results, [], stage3_result, Metadata.info [] [] true)
  else
    let s2 := stage2_collect_rankings P user_query stage1_results council_models
    let aggregate_rankings := calculate_aggregate_rankings s2.1 s2.2
    let stage3_result :=
      stage3_synthesize_final P user_query stage1_results s2.1 chairman_model
    (stage1_results, s2.1, stage3_result,
     Metadata.info s2.2 aggregate_rankings false)

/-! ## webhooks.py — job store -/

/-- `webhooks.JobStatus`. -/
inductive JobStatus where
  | pending
  | running
  | completed
  | failed
  | webhook_sent
  | webhook_failed
deriving DecidableEq, Repr

/-- A stored job record (the fields of the `_jobs[job_id]` dict that the
job-store operations of the claims read; the request-echo fields
`webhook_secret`, `models`, … are irrelevant to the claims and omitted). -/
structure JobRec where
  job_id : String
  status : JobStatus
  query : String
  webhook_url : String
  created_at : String
  started_at : Option String
  completed_at : Option String
  error : Option String
  result_summary : Option String
deriving DecidableEq, Repr

/-- `webhooks.JobInfo`, the listing summary model. -/
structure JobInfo where
  job_id : String
  status : JobStatus
  query : String
  webhook_url : String
  created_at : String
  started_at : Option String
  completed_at : Option String
  error : Option String
  result_summary : Option String
deriving DecidableEq, Repr

/-- Python string `<=` (lexicographic on code points). -/
def listCharLe : List Char → List Char → Bool
  | [], _ => true
  | _ :: _, [] => false
  | a :: as, b :: bs =>
    if a < b then true else if b < a then false else listCharLe as bs

/-- Python string `<=` on `String`. -/
def strLe (a b : String) : Bool := listCharLe a.toList b.toList

/-- The query summary of `list_jobs`:
`j["query"][:100] + "..." if len(j["query"]) > 100 else j["query"]`. -/
def trimQuery (q : String) : String :=
  if 100 < q.toList.length then (q.toList.take 100).asString ++ "..." else q

/-- The ordering of `jobs.sort(key=lambda x: x["created_at"],
reverse=True)`: by `created_at` descending. -/
def jobOrder (a b : JobRec) : Prop := strLe b.created_at a.created_at = true

instance : DecidableRel jobOrder := fun _ _ => inferInstanceAs (Decidable (_ = _))

/-- `webhooks.list_jobs`: optional status filter, stable sort by
`created_at` descending (`sort(key=..., reverse=True)`), first `limit`
entries mapped to summaries. The call reads the store and returns it
unchanged (second component). -/
def list_jobs (store : List JobRec) (limit : Nat)
    (status : Option JobStatus) : List JobInfo × List JobRec :=
  let jobs : List JobRec := match status with
    | some st => store.filter (fun j => j.status == st)
    | none => store
  let sorted := jobs.insertionSort jobOrder
  ((sorted.take limit).map (fun j =>
      ⟨j.job_id, j.status, trimQuery j.query, j.webhook_url, j.created_at,
       j.started_at, j.completed_at, j.error, j.result_summary⟩),
   store)

/-! ## webhooks.py — JSON serialization (`json.dumps(payload, sort_keys=True)`)

The payload of `send_webhook` is a Python object of dicts, lists, strings,
ints, bools and `None`; `Json` models it. `json.dumps` with `sort_keys=True`
and the default separators serializes objects with their keys sorted. -/

/-- The JSON payload model. -/
inductive Json where
  | null
  | bool (b : Bool)
  | num (n : Int)
  | str (s : String)
  | arr (elements : List Json)
  | obj (members : List (String × Json))

/-- Hex digit `0`-`9a`-`f` of a nibble (the lowercase alphabet of Python's
`hexdigest` and `\uXXXX` escapes). -/
def hexDigit (n : Nat) : Char :=
  if n < 10 then Char.ofNat (48 + n) else Char.ofNat (87 + n)

/-- Four lowercase hex digits of a code unit (for `\uXXXX`). -/
def hex4 (n : Nat) : List Char :=
  [hexDigit (n / 4096 % 16), hexDigit (n / 256 % 16), hexDigit (n / 16 % 16),
   hexDigit (n % 16)]

/-- `json.dumps` escaping of one character (`ensure_ascii=True`: ASCII
passes through, control characters and non-ASCII become escapes,
astral code points become surrogate pairs). -/
def jsonEscapeChar (c : Char) : List Char :=
  let n := c.toNat
  if c = '"' then ['\\', '"']
  else if c = '\\' then ['\\', '\\']
  else if c = '\n' then ['\\', 'n']
  else if c = '\r' then ['\\', 'r']
  else if c = '\t' then ['\\', 't']
  else if n = 8 then ['\\', 'b']
  else if n = 12 then ['\\', 'f']
  else if n < 32 then '\\' :: 'u' :: hex4 n
  else if n < 127 then [c]
  else if n < 65536 then '\\' :: 'u' :: hex4 n
  else
    ('\\' :: 'u' :: hex4 (55296 + (n - 65536) / 1024)) ++
    ('\\' :: 'u' :: hex4 (56320 + (n - 65536) % 1024))

/-- `json.dumps` serialization of a string. -/
def jsonDumpString (s : String) : String :=
  "\"" ++ ((s.toList.map jsonEscapeChar).flatten).asString ++ "\""

/-- Sort object members by key (Python `sorted` on the keys, i.e. code
point order). -/
def sortMembers (kvs : List (String × String)) : List (String × String) :=
  kvs.insertionSort (fun a b => strLe a.1 b.1 = true)

mutual

/-- `json.dumps(v, sort_keys=True)` with the default separators
`(", ", ": ")`. -/
def jsonDumps : Json → String
  | .null => "null"
  | .bool true => "true"
  | .bool false => "false"
  | .num n => toString n
  | .str s => jsonDumpString s
  | .arr elements => "[" ++ strJoin ", " (jsonDumpsList elements) ++ "]"
  | .obj members =>
    "\x7b" ++
    strJoin ", " ((sortMembers (jsonDumpsMembers members)).map
      (fun kv => jsonDumpString kv.1 ++ ": " ++ kv.2)) ++
    "\x7d"

/-- Serialize the elements of an array in order. -/
def jsonDumpsList : List Json → List String
  | [] => []
  | j :: js => jsonDumps j :: jsonDumpsList js

/-- Serialize the values of an object's members, keeping the keys. -/
def jsonDumpsMembers : List (String × Json) → List (String × String)
  | [] => []
  | (k, v) :: kvs => (k, jsonDumps v) :: jsonDumpsMembers kvs

end

/-! ## webhooks.py — HMAC-SHA256 signing

`hmac.new(secret.encode(), payload_bytes, hashlib.sha256).hexdigest()` is
modelled by a full executable SHA-256 (FIPS 180-4) and HMAC (RFC 2104) over
byte lists, with bytes and 32-bit words as `Nat` reduced mod `2^32` where
overflow can occur. -/

/-- UTF-8 encoding of one character (`str.encode()`). -/
def utf8Char (c : Char) : List Nat :=
  let n := c.toNat
  if n < 128 then [n]
  else if n < 2048 then [192 + n / 64, 128 + n % 64]
  else if n < 65536 then [224 + n / 4096, 128 + n / 64 % 64, 128 + n % 64]
  else
    [240 + n / 262144, 128 + n / 4096 % 64, 128 + n / 64 % 64, 128 + n % 64]

/-- UTF-8 encoding of a string (`str.encode()`). -/
def utf8Encode (s : String) : List Nat :=
  (s.toList.map utf8Char).flatten

/-- Addition mod `2^32`. -/
def add32 (a b : Nat) : Nat := (a + b) % 4294967296

/-- Right rotation of a 32-bit word. -/
def rotr32 (k x : Nat) : Nat :=
  (x / 2 ^ k + x * 2 ^ (32 - k)) % 4294967296

/-- Right shift of a 32-bit word. -/
def shr32 (k x : Nat) : Nat := x / 2 ^ k

/-- The SHA-256 compression state (working variables / hash words). -/
structure Sha256State where
  a : Nat
  b : Nat
  c : Nat
  d : Nat
  e : Nat
  f : Nat
  g : Nat
  h : Nat
deriving DecidableEq, Repr

/-- SHA-256 initial hash value. -/
def sha256Init : Sha256State :=
  ⟨1779033703, 3144134277, 1013904242, 2773480762,
   1359893119, 2600822924, 528734635, 1541459225⟩

/-- SHA-256 round constants. -/
def sha256K : List Nat :=
  [1116352408, 1899447441, 3049323471, 3921009573, 961987163,
   1508970993, 2453635748, 2870763221, 3624381080, 310598401,
   607225278, 1426881987, 1925078388, 2162078206, 2614888103,
   3248222580, 3835390401, 4022224774, 264347078, 604807628,
   770255983, 1249150122, 1555081692, 1996064986, 2554220882,
   2821834349, 2952996808, 3210313671, 3336571891, 3584528711,
   113926993, 338241895, 666307205, 773529912, 1294757372,
   1396182291, 1695183700, 1986661051, 2177026350, 2456956037,
   2730485921, 2820302411, 3259730800, 3345764771, 3516065817,
   3600352804, 4094571909, 275423344, 430227734, 506948616,
   659060556, 883997877, 958139571, 1322822218, 1537002063,
   1747873779, 1955562222, 2024104815, 2227730452, 2361852424,
   2428436474, 2756734187, 3204031479, 3329325298]

/-- `Ch(e, f, g)`. -/
def sha256Ch (e f g : Nat) : Nat :=
  Nat.xor (Nat.land e f) (Nat.land (Nat.xor e 4294967295) g)

/-- `Maj(a, b, c)`. -/
def sha256Maj (a b c : Nat) : Nat :=
  Nat.xor (Nat.xor (Nat.land a b) (Nat.land a c)) (Nat.land b c)

/-- `Σ0`. -/
def sigmaBig0 (x : Nat) : Nat :=
  Nat.xor (Nat.xor (rotr32 2 x) (rotr32 13 x)) (rotr32 22 x)

/-- `Σ1`. -/
def sigmaBig1 (x : Nat) : Nat :=
  Nat.xor (Nat.xor (rotr32 6 x) (rotr32 11 x)) (rotr32 25 x)

/-- `σ0`. -/
def sigmaSmall0 (x : Nat) : Nat :=
  Nat.xor (Nat.xor (rotr32 7 x) (rotr32 18 x)) (shr32 3 x)

/-- `σ1`. -/
def sigmaSmall1 (x : Nat) : Nat :=
  Nat.xor (Nat.xor (rotr32 17 x) (rotr32 19 x)) (shr32 10 x)

/-- One SHA-256 round with schedule word `w` and constant `k`. -/
def sha256Round (s : Sha256State) (wk : Nat × Nat) : Sha256State :=
  let t1 := add32 (add32 (add32 s.h (sigmaBig1 s.e))
    (sha256Ch s.e s.f s.g)) (add32 wk.2 wk.1)
  let t2 := add32 (sigmaBig0 s.a) (sha256Maj s.a s.b s.c)
  ⟨add32 t1 t2, s.a, s.b, s.c, add32 s.d t1, s.e, s.f, s.g⟩

/-- Split a byte list into chunks of `size` bytes (fuel-driven;
`chunksN` supplies enough fuel). -/
def chunksF (size : Nat) : Nat → List Nat → List (List Nat)
  | 0, _ => []
  | _, [] => []
  | fuel + 1, l => l.take size :: chunksF size fuel (l.drop size)

/-- Split a byte list into chunks of `size` bytes. -/
def chunksN (size : Nat) (l : List Nat) : List (List Nat) :=
  chunksF size l.length l

/-- Big-endian 32-bit word of a 4-byte chunk. -/
def wordOfBytes (bs : List Nat) : Nat :=
  bs.foldl (fun acc x => acc * 256 + x) 0

/-- Append one `σ`-extended schedule word. -/
def sha256ExtendStep (w : List Nat) : List Nat :=
  let n := w.length
  w ++ [add32 (add32 (sigmaSmall1 (w.getD (n - 2) 0)) (w.getD (n - 7) 0))
        (add32 (sigmaSmall0 (w.getD (n - 15) 0)) (w.getD (n - 16) 0))]

/-- Extend the 16 message words to the 64-word schedule. -/
def sha256Schedule (block : List Nat) : List Nat :=
  Nat.rec ((chunksN 4 block).map wordOfBytes)
    (fun _ w => sha256ExtendStep w) 48

/-- Compress one 64-byte block into the running hash. -/
def sha256Compress (s : Sha256State) (block : List Nat) : Sha256State :=
  let t := ((sha256Schedule block).zip sha256K).foldl sha256Round s
  ⟨add32 s.a t.a, add32 s.b t.b, add32 s.c t.c, add32 s.d t.d,
   add32 s.e t.e, add32 s.f t.f, add32 s.g t.g, add32 s.h t.h⟩

/-- Big-endian bytes of a 64-bit length. -/
def bytesBE8 (n : Nat) : List Nat :=
  [n / 2 ^ 56 % 256, n / 2 ^ 48 % 256, n / 2 ^ 40 % 256, n / 2 ^ 32 % 256,
   n / 2 ^ 24 % 256, n / 2 ^ 16 % 256, n / 2 ^ 8 % 256, n % 256]

/-- SHA-256 padding: `0x80`, zeros to 56 mod 64, 8-byte bit length. -/
def sha256Pad (msg : List Nat) : List Nat :=
  msg ++ [128] ++ List.replicate ((119 - msg.length % 64) % 64) 0 ++
    bytesBE8 (8 * msg.length)

/-- Big-endian bytes of a 32-bit word. -/
def bytesOfWord (w : Nat) : List Nat :=
  [w / 2 ^ 24 % 256, w / 2 ^ 16 % 256, w / 2 ^ 8 % 256, w % 256]

/-- The 32-byte digest of a final state. -/
def sha256StateBytes (s : Sha256State) : List Nat :=
  bytesOfWord s.a ++ bytesOfWord s.b ++ bytesOfWord s.c ++ bytesOfWord s.d ++
  bytesOfWord s.e ++ bytesOfWord s.f ++ bytesOfWord s.g ++ bytesOfWord s.h

/-- SHA-256 of a byte list (`hashlib.sha256(...).digest()`). -/
def sha256 (msg : List Nat) : List Nat :=
  sha256StateBytes ((chunksN 64 (sha256Pad msg)).foldl sha256Compress sha256Init)

/-- HMAC-SHA256 (RFC 2104, as implemented by `hmac.new(key, msg,
hashlib.sha256)`): long keys are hashed, short keys zero-padded to the
64-byte block, then the nested inner/outer hashes are taken. -/
def hmacSha256 (key msg : List Nat) : List Nat :=
  let k0 := if 64 < key.length then sha256 key else key
  let k1 := k0 ++ List.replicate (64 - k0.length) 0
  sha256 ((k1.map (fun b => Nat.xor b 92)) ++
    sha256 ((k1.map (fun b => Nat.xor b 54)) ++ msg))

/-- Lowercase-hex string of a byte list (`.hexdigest()`). -/
def hexOfBytes (bs : List Nat) : String :=
  ((bs.map (fun b => [hexDigit (b / 16 % 16), hexDigit (b % 16)])).flatten).asString

/-! ## webhooks.send_webhook -/

/-- The fixed headers of `send_webhook`. -/
def webhookBaseHeaders : List (String × String) :=
  [("Content-Type", "application/json"),
   ("User-Agent", "LLM-Council-Webhook/1.0")]

/-- Python truthiness of the optional secret (`if secret:` is false for
`None` and for the empty string). -/
def secretTruthy : Option String → Bool
  | none => false
  | some s => !(s == "")

/-- The `X-Webhook-Signature` value: `f"sha256={signature}"` where
`signature` is the hex HMAC-SHA256 of the sorted-keys JSON serialization
of the payload, keyed by the encoded secret. -/
def webhookSignature (secret : String) (payload : Json) : String :=
  "sha256=" ++ hexOfBytes (hmacSha256 (utf8Encode secret)
    (utf8Encode (jsonDumps payload)))

/-- The request headers `send_webhook` posts with: the fixed headers,
plus the signature header if a truthy secret was provided. -/
def send_webhook_headers (payload : Json) (secret : Option String) :
    List (String × String) :=
  if secretTruthy secret then
    dictInsert webhookBaseHeaders "X-Webhook-Signature"
      (webhookSignature (secret.getD "") payload)
  else webhookBaseHeaders

/-- The delivery result of `send_webhook` with per-attempt outcomes
`attempt : Nat → Option Nat` (`some code` = HTTP response with that
status, `none` = timeout or request error): `True` as soon as an attempt
in `range(retries)` returns a status `< 300`, else `False` after the
loop. -/
def send_webhook_ok (attempt : Nat → Option Nat) (retries : Nat) : Bool :=
  (List.range retries).any (fun i =>
    match attempt i with
    | some code => code < 300
    | none => false)

/-! ## webhooks.run_council_async — job status writes -/

/-- The outcome environment of one `run_council_async` run: the
deliberation result (`Except.error` models a raised exception) and the
webhook attempt outcomes of the completion path and of the best-effort
failure path. -/
structure AsyncEnv where
  deliberation : Except String Unit
  attempt : Nat → Option Nat
  failAttempt : Nat → Option Nat

/-- The sequence of `status` values `run_council_async` writes through
`update_job`, in order: `running` first; then, per deliberation outcome,
`completed` followed by the webhook-terminal status, or `failed` (the
failure webhook is sent best-effort without a further status write). -/
def runnerStatusWrites (env : AsyncEnv) : List JobStatus :=
  JobStatus.running ::
    (match env.deliberation with
     | .ok _ =>
       [JobStatus.completed,
        if send_webhook_ok env.attempt 3 then JobStatus.webhook_sent
        else JobStatus.webhook_failed]
     | .error _ => [JobStatus.failed])

/-- The full status history of a job: `create_job` stores it as `pending`,
then the background runner appends its writes (for a job id absent from
the store the runner writes nothing, so this is the only shape). -/
def jobStatusHistory (env : AsyncEnv) : List JobStatus :=
  JobStatus.pending :: runnerStatusWrites env

/-- The transition order of the claimed job state machine:
`pending → running → (completed|failed) → (webhook_sent|webhook_failed)`. -/
def statusStep : JobStatus → JobStatus → Prop
  | .pending, .running => True
  | .running, .completed => True
  | .running, .failed => True
  | .completed, .webhook_sent => True
  | .completed, .webhook_failed => True
  | .failed, .webhook_sent => True
  | .failed, .webhook_failed => True
  | _, _ => False

/-! ## Auxiliary definitions used by the verification theorems -/

/-- A provider environment in which every adapter fails. -/
def allFailProviders : Providers :=
  ⟨fun _ _ => none, fun _ _ => Except.error "boom", fun _ _ => none⟩

/-- The provider-grouped order in which `query_models_parallel` assembles
its result dict: cerebras ids, then anthropic ids, then the rest, each
group in input order. -/
def groupedModels (models : List String) : List String :=
  models.filter (fun m => is_cerebras_model m) ++
  models.filter (fun m => is_anthropic_model m) ++
  models.filter (fun m => !is_cerebras_model m && !is_anthropic_model m)

/-- The ordering the specification claims for the aggregate list: mean
ascending, ties by greater vote count, then by model id. -/
def claimedAggOrder (a b : AggEntry) : Bool :=
  if a.average_rank < b.average_rank then true
  else if b.average_rank < a.average_rank then false
  else if b.rankings_count < a.rankings_count then true
  else if a.rankings_count < b.rankings_count then false
  else strLe a.model b.model

/-- The position list recorded for model `m` (the value of
`model_positions[m]`, `[]` when absent). -/
def positionsOf : List (String × List Nat) → String → List Nat
  | [], _ => []
  | kv :: rest, m => if kv.1 == m then kv.2 else positionsOf rest m

/-- The positions one parsed ranking contributes to model `m`: one entry
per occurrence of a label mapped to `m`, where the position is the
occurrence's 1-based index among all parsed labels (mapped or not). -/
def rankingContribution (lmap : List (String × String))
    (parsed : List String) (m : String) : List Nat :=
  parsed.enum.filterMap (fun il =>
    if dictGet lmap il.2 == some m then some (il.1 + 1) else none)

/-- All positions model `m` receives across the stage-2 entries, in
ranker order. -/
def collectPositions (stage2 : List Stage2Entry)
    (lmap : List (String × String)) (m : String) : List Nat :=
  (stage2.map (fun r =>
    rankingContribution lmap (parse_ranking_from_text r.ranking) m)).flatten

/-- Spec side, amended: the region Python's `split` yields as `parts[1]` —
the text between the end of the first `FINAL RANKING:` occurrence and the
start of the next occurrence (or the end of the text). -/
def regionAfterMarker (s : List Char) : List Char :=
  match firstIdxOf FINAL_MARKER s with
  | some i =>
    match firstIdxOf FINAL_MARKER (s.drop (i + FINAL_MARKER.length)) with
    | some j => (s.drop (i + FINAL_MARKER.length)).take j
    | none => s.drop (i + FINAL_MARKER.length)
  | none => []

/-- Spec side: the label part (the trailing `Response X`, 10 characters)
of each numbered match, in order. -/
def numberedLabels (s : List Char) : List (List Char) :=
  (findallNumbered s).map (fun m => m.drop (m.length - 10))

/-- The amended specification of the parser: marker region between the
first two marker occurrences, numbered labels, plain fallback inside the
region, whole-text plain fallback without a marker. -/
def parseRankingSpec (s : List Char) : List (List Char) :=
  match firstIdxOf FINAL_MARKER s with
  | some _ =>
    if (numberedLabels (regionAfterMarker s)).isEmpty then
      findallPlain (regionAfterMarker s)
    else numberedLabels (regionAfterMarker s)
  | none => findallPlain s

/-- The parser as the original claim words it: the region is everything
after the first marker occurrence. -/
def parseRankingClaim (s : List Char) : List (List Char) :=
  match firstIdxOf FINAL_MARKER s with
  | some i =>
    if (numberedLabels (s.drop (i + FINAL_MARKER.length))).isEmpty then
      findallPlain (s.drop (i + FINAL_MARKER.length))
    else numberedLabels (s.drop (i + FINAL_MARKER.length))
  | none => findallPlain s

/-! ## Theorems -/

/-- C1: dispatching `"fireworks/kimi-k2.5"` (a model with an
`OPENROUTER_FALLBACK_MAP` entry) through `query_single_model` issues
exactly one provider call — the generic OpenRouter adapter with the
unmapped id — and returns that adapter's result unchanged: when the
primary returns no response there is no retry through the mapped id
`"moonshotai/kimi-k2.5"`, although the fallback map contains it. The
claimed fallback policy is absent from the code (the map is defined but
never consulted). -/
theorem dispatch_never_consults_fallback (P : Providers)
    (messages : List Message) :
    query_single_model P "fireworks/kimi-k2.5" messages =
      (P.openrouter "fireworks/kimi-k2.5" messages,
       [ProviderCall.openrouter "fireworks/kimi-k2.5"]) ∧
    get_openrouter_fallback "fireworks/kimi-k2.5" =
      some "moonshotai/kimi-k2.5" := by
  refine ⟨?_, by decide⟩
  simp [query_single_model,
    show is_cerebras_model "fireworks/kimi-k2.5" = false from by decide,
    show is_anthropic_model "fireworks/kimi-k2.5" = false from by decide]

/-- C6: every run of the async runner writes job statuses in a sequence
that starts at `pending` and steps along
`pending → running → (completed|failed) → (webhook_sent|webhook_failed)`:
no write moves backwards, skips `running`, or follows a webhook-terminal
status. -/
theorem job_status_monotonic (env : AsyncEnv) :
    (jobStatusHistory env).Chain' statusStep ∧
    (jobStatusHistory env).head? = some JobStatus.pending := by
  refine ⟨?_, rfl⟩
  unfold jobStatusHistory runnerStatusWrites
  cases env.deliberation with
  | ok _ =>
    cases h : send_webhook_ok env.attempt 3 <;>
      simp [List.chain'_cons, statusStep]
  | error _ => simp [List.chain'_cons, statusStep]

/-- C2 (amended): the aggregate ranking list is sorted non-decreasing in
the reported (rounded) mean position and is a permutation of the
per-model aggregates; entries with equal mean keep the stable sort's
first-encounter order — no vote-count or lexicographic tie-break is
applied (see the counterexample). -/
theorem aggregate_sorted (stage2 : List Stage2Entry)
    (lmap : List (String × String)) :
    (calculate_aggregate_rankings stage2 lmap).Sorted aggLe ∧
    (calculate_aggregate_rankings stage2 lmap).Perm
      (aggregateUnsorted stage2 lmap) := by
  exact ⟨List.sorted_insertionSort aggLe _, List.perm_insertionSort aggLe _⟩

/-- C2 counterexample: with two rankers, model `mA` (mean 2, one vote)
precedes `mB` (mean 2, two votes) because ties keep first-encounter
order, violating the claimed greater-vote-count-first, then lexicographic
tie-break (which would put `mB` first). -/
theorem aggregate_tiebreak_counterexample :
    ((calculate_aggregate_rankings
      [⟨"r1", "FINAL RANKING:\n1. Response C\n2. Response A",
        parse_ranking_from_text "FINAL RANKING:\n1. Response C\n2. Response A",
        "p"⟩,
       ⟨"r2", "FINAL RANKING:\n1. Response B\n2. Response C\n3. Response B",
        parse_ranking_from_text
          "FINAL RANKING:\n1. Response B\n2. Response C\n3. Response B", "p"⟩]
      [("Response A", "mA"), ("Response B", "mB")]).map
      (fun e => (e.model, e.average_rank, e.rankings_count)) =
      [("mA", mkRat 2 1, 1), ("mB", mkRat 2 1, 2)]) ∧
    ¬ (calculate_aggregate_rankings
      [⟨"r1", "FINAL RANKING:\n1. Response C\n2. Response A",
        parse_ranking_from_text "FINAL RANKING:\n1. Response C\n2. Response A",
        "p"⟩,
       ⟨"r2", "FINAL RANKING:\n1. Response B\n2. Response C\n3. Response B",
        parse_ranking_from_text
          "FINAL RANKING:\n1. Response B\n2. Response C\n3. Response B", "p"⟩]
      [("Response A", "mA"), ("Response B", "mB")]).Pairwise
      (fun a b => claimedAggOrder a b = true) := by
  constructor
  · decide
  · decide

/-- C9 (amended): `list_jobs` returns the job store unchanged, and each
returned summary's query equals the stored query when it has at most 100
characters, and otherwise the first 100 characters followed by `"..."`. -/
theorem list_jobs_frame_and_trim (store : List JobRec) (limit : Nat)
    (status : Option JobStatus) :
    (list_jobs store limit status).2 = store ∧
    ∀ info ∈ (list_jobs store limit status).1, ∃ j ∈ store,
      (j.query.toList.length ≤ 100 → info.query = j.query) ∧
      (100 < j.query.toList.length →
        info.query = (j.query.toList.take 100).asString ++ "...") := by
  refine ⟨rfl, ?_⟩
  intro info hinfo
  simp only [list_jobs] at hinfo
  obtain ⟨j, hj, rfl⟩ := List.mem_map.mp hinfo
  have hj1 := (List.mem_insertionSort _).mp (List.mem_of_mem_take hj)
  have hjs : j ∈ store := by
    cases status with
    | none => exact hj1
    | some st => exact (List.mem_filter.mp hj1).1
  refine ⟨j, hjs, ?_, ?_⟩
  · intro hle
    show trimQuery j.query = j.query
    unfold trimQuery
    rw [if_neg (by omega)]
  · intro hlt
    show trimQuery j.query = _
    unfold trimQuery
    rw [if_pos hlt]

/-- C9 counterexample: for a stored query of 101 characters the listing
summary is the first 100 characters plus `"..."` — 103 characters, not a
trim to 100 characters. -/
theorem list_jobs_trim_counterexample :
    ((list_jobs [⟨"j1", JobStatus.pending, (List.replicate 101 'a').asString,
        "u", "t", none, none, none, none⟩] 50 none).1.map
        (fun i => i.query)) =
      [((List.replicate 100 'a').asString ++ "...")] ∧
    ((List.replicate 100 'a').asString ++ "...").toList.length = 103 := by
  constructor <;> decide

/-- C7: when zero stage-1 responses succeed, `run_full_council` returns
(without raising) the sentinel result: empty stage-1 list, empty stage-2
list, a stage-3 whose response text contains
`"All models failed to respond"`, and empty metadata. -/
theorem run_full_council_all_failed (P : Providers) (q : String) (fo : Bool)
    (cm : Option (List String)) (ch : Option String)
    (h : stage1_collect_responses P q cm = []) :
    run_full_council P q fo cm ch =
      ([], [], ⟨resolveChairman ch,
        "All models failed to respond. Please try again."⟩,
       Metadata.empty) ∧
    containsSeq "All models failed to respond".toList
      ((run_full_council P q fo cm ch).2.2.1.response.toList) = true := by
  have h1 : run_full_council P q fo cm ch =
      ([], [], ⟨resolveChairman ch,
        "All models failed to respond. Please try again."⟩,
       Metadata.empty) := by
    unfold run_full_council
    rw [h]
    simp
  have h2 : containsSeq "All models failed to respond".toList
      "All models failed to respond. Please try again.".toList = true := by
    decide
  exact ⟨h1, by rw [h1]; exact h2⟩

/-- C7 witness: the sentinel at a concrete environment in which every
provider fails. -/
theorem run_full_council_all_failed_witness :
    run_full_council allFailProviders "q" false none none =
      ([], [], ⟨resolveChairman none,
        "All models failed to respond. Please try again."⟩,
       Metadata.empty) ∧
    containsSeq "All models failed to respond".toList
      ((run_full_council allFailProviders "q" false none
        none).2.2.1.response.toList) = true :=
  run_full_council_all_failed allFailProviders "q" false none none (by decide)

theorem cerebras_not_anthropic {m : String}
    (h : is_cerebras_model m = true) : is_anthropic_model m = false := by
  have hm : m ∈ CEREBRAS_MODEL_IDS := by
    simpa [is_cerebras_model] using h
  fin_cases hm <;> decide

theorem dictInsert_append_of_not_mem {α : Type} (acc : List (String × α))
    (k : String) (v : α) (h : ¬ k ∈ acc.map Prod.fst) :
    dictInsert acc k v = acc ++ [(k, v)] := by
  unfold dictInsert
  have h' : ¬ (acc.any (fun x => x.1 == k) = true) := by
    simp only [List.any_eq_true]
    rintro ⟨kv, hkv, heq⟩
    exact h (List.mem_map.mpr ⟨kv, hkv, by simpa using heq⟩)
  rw [if_neg h']

theorem foldl_dictInsert_of_nodup {α : Type} :
    ∀ (l acc : List (String × α)),
      ((acc ++ l).map Prod.fst).Nodup →
      l.foldl (fun a kv => dictInsert a kv.1 kv.2) acc = acc ++ l := by
  intro l
  induction l with
  | nil => intro acc _; simp
  | cons kv rest ih =>
    intro acc h
    have hnotmem : ¬ kv.1 ∈ acc.map Prod.fst := by
      intro hmem
      have := List.disjoint_of_nodup_append (by simpa using h)
      exact this hmem (by simp)
    simp only [List.foldl_cons]
    rw [dictInsert_append_of_not_mem acc kv.1 kv.2 hnotmem]
    have := ih (acc ++ [kv]) (by simpa using h)
    simpa using this

theorem dictOfList_of_nodup {α : Type} (l : List (String × α))
    (h : (l.map Prod.fst).Nodup) : dictOfList l = l := by
  have := foldl_dictInsert_of_nodup l [] (by simpa using h)
  simpa [dictOfList] using this

theorem query_models_parallel_eq (P : Providers) (models : List String)
    (messages : List Message) (h : models.Nodup) :
    query_models_parallel P models messages =
      (groupedModels models).map (fun m => (m, responseFor P m messages)) := by
  have e1 : ∀ (f : String → Option ModelResponse) (l : List String),
      (l.map (fun m => (m, f m))).map Prod.fst = l := by
    intro f l
    induction l with
    | nil => rfl
    | cons a t iht => simp only [List.map_cons, iht]
  have hanth_not_cer : ∀ {m : String}, is_anthropic_model m = true →
      is_cerebras_model m = false := by
    intro m hm
    by_contra hc
    have := cerebras_not_anthropic (by simpa using Bool.not_eq_false _ |>.mp hc)
    rw [this] at hm
    exact Bool.false_ne_true hm
  have hkeys :
      (((models.filter (fun m => is_cerebras_model m)).map
          (fun m => (m, P.cerebras m messages)) ++
        (models.filter (fun m => is_anthropic_model m)).map
          (fun m => (m, anthropicWrapped P m messages)) ++
        (models.filter (fun m => !is_cerebras_model m && !is_anthropic_model m)).map
          (fun m => (m, P.openrouter m messages))).map Prod.fst).Nodup := by
    rw [List.map_append, List.map_append, e1, e1, e1]
    rw [List.nodup_append, List.nodup_append]
    refine ⟨⟨h.filter _, h.filter _, ?_⟩, h.filter _, ?_⟩
    · intro x hx1 hx2
      have h1 := (List.mem_filter.mp hx1).2
      have h2 := (List.mem_filter.mp hx2).2
      rw [cerebras_not_anthropic h1] at h2
      exact Bool.false_ne_true h2
    · intro x hx1 hx3
      have h3 := (List.mem_filter.mp hx3).2
      rcases List.mem_append.mp hx1 with hx | hx
      · have h1 := (List.mem_filter.mp hx).2
        rw [h1] at h3
        simp at h3
      · have h2 := (List.mem_filter.mp hx).2
        rw [h2] at h3
        simp at h3
  unfold query_models_parallel groupedModels
  rw [dictOfList_of_nodup _ hkeys]
  rw [List.map_append, List.map_append]
  congr 1
  · congr 1
    · refine List.map_congr_left ?_
      intro m hm
      have h1 := (List.mem_filter.mp hm).2
      simp only [responseFor, h1, if_pos]
    · refine List.map_congr_left ?_
      intro m hm
      have h2 := (List.mem_filter.mp hm).2
      have h1 := hanth_not_cer h2
      simp only [responseFor, h1, h2, Bool.false_eq_true, if_false, if_pos]
  · refine List.map_congr_left ?_
    intro m hm
    have h3 := (List.mem_filter.mp hm).2
    rw [Bool.and_eq_true] at h3
    have h1 : is_cerebras_model m = false := by
      simpa using h3.1
    have h2 : is_anthropic_model m = false := by
      simpa using h3.2
    simp only [responseFor, h1, h2, Bool.false_eq_true, if_false]

theorem filterMap_model_filter (l : List String)
    (f : String → Option ModelResponse) :
    ((l.map (fun m => (m, f m))).filterMap (fun mr =>
        mr.2.map (fun resp => Stage1Entry.mk mr.1 resp.content resp.provider))).map
      (fun e => e.model) =
    l.filter (fun m => (f m).isSome) := by
  induction l with
  | nil => rfl
  | cons m rest ih =>
    cases hf : f m with
    | none =>
      simp only [List.map_cons, List.filterMap_cons, hf, Option.map_none',
        List.filter_cons, Option.isSome_none, Bool.false_eq_true, if_false, ih]
    | some r =>
      simp only [List.map_cons, List.filterMap_cons, hf, Option.map_some',
        List.filter_cons, Option.isSome_some, if_true, List.map_cons, ih]

theorem resolve_some_ne_nil {models : List String} (h : models ≠ []) :
    resolveCouncilModels (some models) = models := by
  cases models with
  | nil => exact absurd rfl h
  | cons a t => rfl

/-- C3 (amended): for a council list without duplicate ids, the
successful stage-1 entries appear grouped by provider — Cerebras ids
first, then Anthropic, then the rest — preserving the input order within
each group, and the stage-2 labels `Response A`, `Response B`, … are
assigned to the entries in that same grouped order. -/
theorem stage1_order_grouped (P : Providers) (q : String)
    (models : List String) (hnd : models.Nodup) (hne : models ≠ []) :
    ((stage1_collect_responses P q (some models)).map (fun e => e.model) =
      (groupedModels models).filter
        (fun m => (responseFor P m [Message.mk "user" q]).isSome)) ∧
    ((stage2_collect_rankings P q
        (stage1_collect_responses P q (some models)) (some models)).2 =
      (stage1_collect_responses P q (some models)).enum.map
        (fun ie => (labelString ie.1, ie.2.model))) := by
  constructor
  · show ((query_models_parallel P (resolveCouncilModels (some models))
        [Message.mk "user" q]).filterMap (fun mr =>
          mr.2.map (fun resp =>
            Stage1Entry.mk mr.1 resp.content resp.provider))).map
        (fun e => e.model) = _
    rw [resolve_some_ne_nil hne, query_models_parallel_eq P models _ hnd]
    exact filterMap_model_filter (groupedModels models) _
  · rfl

/-- C3 counterexample: with input order
`["openai/gpt-5.2", "llama3.1-8b"]` and both models succeeding, stage 1
lists the Cerebras model `llama3.1-8b` first — not the input order the
claim states. -/
theorem stage1_order_counterexample :
    (stage1_collect_responses
      ⟨fun _ _ => some ⟨"ok", "cerebras"⟩, fun _ _ => Except.ok ⟨"ok"⟩,
       fun _ _ => some ⟨"ok", "openrouter"⟩⟩ "q"
      (some ["openai/gpt-5.2", "llama3.1-8b"])).map (fun e => e.model) =
      ["llama3.1-8b", "openai/gpt-5.2"] ∧
    (["llama3.1-8b", "openai/gpt-5.2"] : List String) ≠
      ["openai/gpt-5.2", "llama3.1-8b"] := by
  constructor <;> decide

/-- C3 witness: the grouped-order characterisation at a concrete model
list and provider environment. -/
theorem stage1_order_grouped_witness :
    ((stage1_collect_responses allFailProviders "q"
        (some ["openai/gpt-5.2", "llama3.1-8b"])).map (fun e => e.model) =
      (groupedModels ["openai/gpt-5.2", "llama3.1-8b"]).filter
        (fun m => (responseFor allFailProviders m
          [Message.mk "user" "q"]).isSome)) ∧
    ((stage2_collect_rankings allFailProviders "q"
        (stage1_collect_responses allFailProviders "q"
          (some ["openai/gpt-5.2", "llama3.1-8b"]))
        (some ["openai/gpt-5.2", "llama3.1-8b"])).2 =
      (stage1_collect_responses allFailProviders "q"
        (some ["openai/gpt-5.2", "llama3.1-8b"])).enum.map
        (fun ie => (labelString ie.1, ie.2.model))) :=
  stage1_order_grouped allFailProviders "q" ["openai/gpt-5.2", "llama3.1-8b"]
    (by decide) (by decide)

theorem positionsOf_map_ne (m' m : String) (p : Nat)
    (hne : (m' == m) = false) :
    ∀ acc : List (String × List Nat),
      positionsOf (acc.map (fun kv =>
        if kv.1 == m' then (kv.1, kv.2 ++ [p]) else kv)) m =
      positionsOf acc m := by
  intro acc
  induction acc with
  | nil => rfl
  | cons kv rest ih =>
    by_cases hk' : kv.1 = m'
    · have hk'b : (kv.1 == m') = true := by simpa using hk'
      have hkm : (kv.1 == m) = false := by
        subst hk'
        exact hne
      simp only [List.map_cons, positionsOf, hk'b, if_true, hkm,
        Bool.false_eq_true, if_false, ih]
    · have hk'b : (kv.1 == m') = false := by simpa using hk'
      by_cases hk : kv.1 = m
      · have hkb : (kv.1 == m) = true := by simpa using hk
        simp only [List.map_cons, positionsOf, hk'b, Bool.false_eq_true,
          if_false, hkb, if_true]
      · have hkb : (kv.1 == m) = false := by simpa using hk
        simp only [List.map_cons, positionsOf, hk'b, Bool.false_eq_true,
          if_false, hkb, ih]

theorem positionsOf_map_eq (m' m : String) (p : Nat)
    (heq : (m' == m) = true) :
    ∀ acc : List (String × List Nat),
      acc.any (fun kv => kv.1 == m') = true →
      positionsOf (acc.map (fun kv =>
        if kv.1 == m' then (kv.1, kv.2 ++ [p]) else kv)) m =
      positionsOf acc m ++ [p] := by
  have hmm : m' = m := by simpa using heq
  subst hmm
  intro acc
  induction acc with
  | nil => intro h; exact absurd h (by simp)
  | cons kv rest ih =>
    intro h
    by_cases hk' : kv.1 = m'
    · have hk'b : (kv.1 == m') = true := by simpa using hk'
      simp only [List.map_cons, positionsOf, hk'b, if_true]
    · have hk'b : (kv.1 == m') = false := by simpa using hk'
      have hrest : rest.any (fun kv => kv.1 == m') = true := by
        rw [List.any_cons, hk'b] at h
        simpa using h
      simp only [List.map_cons, positionsOf, hk'b, Bool.false_eq_true,
        if_false, ih hrest]

theorem positionsOf_append_new (m' m : String) (p : Nat) :
    ∀ acc : List (String × List Nat),
      acc.any (fun kv => kv.1 == m') = false →
      positionsOf (acc ++ [(m', [p])]) m =
        positionsOf acc m ++ (if m' == m then [p] else []) := by
  intro acc
  induction acc with
  | nil =>
    intro _
    by_cases hm : m' = m
    · have hb : (m' == m) = true := by simpa using hm
      simp [positionsOf, hb]
    · have hb : (m' == m) = false := by simpa using hm
      simp [positionsOf, hb]
  | cons kv rest ih =>
    intro h
    rw [List.any_cons, Bool.or_eq_false_iff] at h
    by_cases hk : kv.1 = m
    · have hkb : (kv.1 == m) = true := by simpa using hk
      have hnm : (m' == m) = false := by
        by_cases hx : m' = m
        · exfalso
          have : (kv.1 == m') = true := by simp [hk, hx]
          rw [this] at h
          exact absurd h.1 (by simp)
        · simpa using hx
      simp only [List.cons_append, positionsOf, hkb, if_true, hnm,
        Bool.false_eq_true, if_false, List.append_nil]
    · have hkb : (kv.1 == m) = false := by simpa using hk
      simp only [List.cons_append, positionsOf, hkb, Bool.false_eq_true,
        if_false]
      exact ih h.2

theorem positionsOf_addPos (acc : List (String × List Nat))
    (m' m : String) (p : Nat) :
    positionsOf (addPos acc m' p) m =
      positionsOf acc m ++ (if m' == m then [p] else []) := by
  unfold addPos
  by_cases hany : acc.any (fun kv => kv.1 == m') = true
  · rw [if_pos hany]
    by_cases hm : m' = m
    · have hb : (m' == m) = true := by simpa using hm
      rw [hb, if_pos rfl, positionsOf_map_eq m' m p hb acc hany]
    · have hb : (m' == m) = false := by simpa using hm
      rw [hb]
      simp only [Bool.false_eq_true, if_false, List.append_nil]
      exact positionsOf_map_ne m' m p hb acc
  · rw [if_neg hany]
    exact positionsOf_append_new m' m p acc (Bool.eq_false_iff.mpr hany)

theorem positionsOf_recordRanking_aux (lmap : List (String × String))
    (m : String) :
    ∀ (L : List (Nat × String)) (acc : List (String × List Nat)),
      positionsOf (L.foldl (fun a il =>
        match dictGet lmap il.2 with
        | some model_name => addPos a model_name (il.1 + 1)
        | none => a) acc) m =
      positionsOf acc m ++ L.filterMap (fun il =>
        if dictGet lmap il.2 == some m then some (il.1 + 1) else none) := by
  intro L
  induction L with
  | nil => intro acc; simp
  | cons il rest ih =>
    intro acc
    cases hd : dictGet lmap il.2 with
    | none =>
      simp only [List.foldl_cons, hd, List.filterMap_cons]
      rw [ih acc]
      simp
    | some mn =>
      simp only [List.foldl_cons, hd, List.filterMap_cons]
      rw [ih (addPos acc mn (il.1 + 1)), positionsOf_addPos]
      by_cases hm : mn = m
      · have hb : (mn == m) = true := by simpa using hm
        have hb2 : ((some mn == some m) : Bool) = true := by simp [hm]
        simp only [hb, if_true, hb2]
        simp [List.append_assoc]
      · have hb : (mn == m) = false := by simpa using hm
        have hb2 : ((some mn == some m) : Bool) = false := by simp [hm]
        simp only [hb, Bool.false_eq_true, if_false, hb2, List.append_nil]

theorem positionsOf_modelPositions_aux (lmap : List (String × String))
    (m : String) :
    ∀ (stage2 : List Stage2Entry) (acc : List (String × List Nat)),
      positionsOf (stage2.foldl (fun a r =>
        recordRanking lmap a (parse_ranking_from_text r.ranking)) acc) m =
      positionsOf acc m ++ collectPositions stage2 lmap m := by
  intro stage2
  induction stage2 with
  | nil => intro acc; simp [collectPositions]
  | cons r rest ih =>
    intro acc
    simp only [List.foldl_cons]
    rw [ih]
    unfold recordRanking
    rw [positionsOf_recordRanking_aux]
    simp [collectPositions, rankingContribution, List.append_assoc]

/-- C10: the aggregation's position list for a model is exactly one
entry per occurrence of a label mapped to it — the occurrence's 1-based
index among all parsed labels — across rankers in order; labels outside
the label map are silently skipped (but still advance positions). The
second conjunct shows a single ranker repeating `Response A` contributing
positions `[1, 3]` (vote count 2) for one model. -/
theorem aggregation_counts_every_occurrence :
    (∀ (stage2 : List Stage2Entry) (lmap : List (String × String))
        (m : String),
      positionsOf (modelPositions stage2 lmap) m =
        collectPositions stage2 lmap m) ∧
    positionsOf (modelPositions
      [⟨"r", "FINAL RANKING:\n1. Response A\n2. Response B\n3. Response A",
        parse_ranking_from_text
          "FINAL RANKING:\n1. Response A\n2. Response B\n3. Response A", "p"⟩]
      [("Response A", "mA")]) "mA" = [1, 3] := by
  constructor
  · intro stage2 lmap m
    unfold modelPositions
    rw [positionsOf_modelPositions_aux]
    rfl
  · decide

/-- C8 (amended): every aggregate entry reports as mean the sum of the
model's received positions divided by their count, rounded to two
decimal places (half-to-even), and reports the number of received
positions as the vote count. -/
theorem mean_is_rounded_sum_over_count (stage2 : List Stage2Entry)
    (lmap : List (String × String)) :
    ∀ e ∈ calculate_aggregate_rankings stage2 lmap, ∃ ps : List Nat,
      (e.model, ps) ∈ modelPositions stage2 lmap ∧ ps ≠ [] ∧
      e.average_rank = round2 ((ps.sum : ℚ) / (ps.length : ℚ)) ∧
      e.rankings_count = ps.length := by
  intro e he
  have he1 : e ∈ aggregateUnsorted stage2 lmap :=
    (List.mem_insertionSort aggLe).mp he
  obtain ⟨mp, hmp, hsome⟩ := List.mem_filterMap.mp he1
  by_cases hempty : mp.2.isEmpty = true
  · rw [if_pos hempty] at hsome
    exact absurd hsome (by simp)
  · rw [if_neg hempty] at hsome
    have he2 : e = aggEntryOf mp.1 mp.2 := by
      exact (Option.some.injEq _ _ ▸ hsome).symm
    refine ⟨mp.2, ?_, ?_, ?_, ?_⟩
    · have : e.model = mp.1 := by rw [he2]; rfl
      rw [this]
      simpa using hmp
    · intro hnil
      rw [hnil] at hempty
      exact hempty rfl
    · rw [he2]
      show round2 (mkRat (mp.2.sum : ℤ) mp.2.length) = _
      rw [Rat.mkRat_eq_div]
      have h1 : (((mp.2.sum : ℕ) : ℤ) : ℚ) = ((mp.2.sum : ℕ) : ℚ) :=
        Int.cast_natCast _
      rw [h1]
    · rw [he2]
      rfl

/-- C8 counterexample: for received positions `[1, 1, 2]` the reported
mean is `1.33`, not the exact `4/3` the claim states. -/
theorem mean_rounded_counterexample :
    ((calculate_aggregate_rankings
      [⟨"r1", "FINAL RANKING:\n1. Response A",
        parse_ranking_from_text "FINAL RANKING:\n1. Response A", "p"⟩,
       ⟨"r2", "FINAL RANKING:\n1. Response A",
        parse_ranking_from_text "FINAL RANKING:\n1. Response A", "p"⟩,
       ⟨"r3", "FINAL RANKING:\n1. Response B\n2. Response A",
        parse_ranking_from_text "FINAL RANKING:\n1. Response B\n2. Response A",
        "p"⟩]
      [("Response A", "mA")]).map
      (fun e => (e.model, e.average_rank, e.rankings_count)) =
      [("mA", mkRat 133 100, 3)]) ∧
    positionsOf (modelPositions
      [⟨"r1", "FINAL RANKING:\n1. Response A",
        parse_ranking_from_text "FINAL RANKING:\n1. Response A", "p"⟩,
       ⟨"r2", "FINAL RANKING:\n1. Response A",
        parse_ranking_from_text "FINAL RANKING:\n1. Response A", "p"⟩,
       ⟨"r3", "FINAL RANKING:\n1. Response B\n2. Response A",
        parse_ranking_from_text "FINAL RANKING:\n1. Response B\n2. Response A",
        "p"⟩]
      [("Response A", "mA")]) "mA" = [1, 1, 2] ∧
    mkRat 133 100 ≠
      ((([1, 1, 2] : List Nat).sum : ℚ) / (([1, 1, 2] : List Nat).length : ℚ) : ℚ) := by
  refine ⟨by decide, by decide, ?_⟩
  intro h
  rw [show (([1, 1, 2] : List Nat).sum : ℚ) = (4 : ℚ) from by norm_num,
    show ((([1, 1, 2] : List Nat).length : ℕ) : ℚ) = (3 : ℚ) from by norm_num] at h
  rw [show (mkRat 133 100 : ℚ) = (133 : ℚ) / 100 from by
    rw [Rat.mkRat_eq_div]; norm_num] at h
  norm_num at h

/-- C8 witness: the rounded-mean characterisation at the concrete
aggregate entry of the `[1, 1, 2]` example. -/
theorem mean_is_rounded_sum_over_count_witness :
    ∃ ps : List Nat,
      ((AggEntry.mk "mA" (mkRat 133 100) 3).model, ps) ∈ modelPositions
        [⟨"r1", "FINAL RANKING:\n1. Response A",
          parse_ranking_from_text "FINAL RANKING:\n1. Response A", "p"⟩,
         ⟨"r2", "FINAL RANKING:\n1. Response A",
          parse_ranking_from_text "FINAL RANKING:\n1. Response A", "p"⟩,
         ⟨"r3", "FINAL RANKING:\n1. Response B\n2. Response A",
          parse_ranking_from_text
            "FINAL RANKING:\n1. Response B\n2. Response A", "p"⟩]
        [("Response A", "mA")] ∧ ps ≠ [] ∧
      (AggEntry.mk "mA" (mkRat 133 100) 3).average_rank =
        round2 ((ps.sum : ℚ) / (ps.length : ℚ)) ∧
      (AggEntry.mk "mA" (mkRat 133 100) 3).rankings_count = ps.length :=
  mean_is_rounded_sum_over_count _ _ (AggEntry.mk "mA" (mkRat 133 100) 3)
    (by decide)

theorem hexDigit_mem_alphabet {n : Nat} (h : n < 16) :
    hexDigit n ∈ "0123456789abcdef".toList := by
  interval_cases n <;> decide

theorem hexOfBytes_lowercase (bs : List Nat) :
    ∀ c ∈ (hexOfBytes bs).toList, c ∈ "0123456789abcdef".toList := by
  intro c hc
  unfold hexOfBytes at hc
  rw [List.toList_asString, List.mem_flatten] at hc
  obtain ⟨sub, hsub, hcsub⟩ := hc
  rw [List.mem_map] at hsub
  obtain ⟨b, _, rfl⟩ := hsub
  simp only [List.mem_cons, List.not_mem_nil, or_false] at hcsub
  rcases hcsub with rfl | rfl
  · exact hexDigit_mem_alphabet (Nat.mod_lt _ (by norm_num))
  · exact hexDigit_mem_alphabet (Nat.mod_lt _ (by norm_num))

theorem hexOfBytes_length (bs : List Nat) :
    (hexOfBytes bs).toList.length = 2 * bs.length := by
  unfold hexOfBytes
  rw [List.toList_asString]
  induction bs with
  | nil => rfl
  | cons b rest ih =>
    simp only [List.map_cons, List.flatten_cons, List.length_append, ih,
      List.length_cons, List.length_nil]
    omega

theorem sha256_length (msg : List Nat) : (sha256 msg).length = 32 := by
  unfold sha256 sha256StateBytes bytesOfWord
  simp

theorem hmacSha256_length (key msg : List Nat) :
    (hmacSha256 key msg).length = 32 :=
  sha256_length _

/-- C4: for every payload and non-empty secret, `send_webhook` sets the
`X-Webhook-Signature` header to `"sha256="` followed by the hex
HMAC-SHA256, keyed by the encoded secret, of the sorted-keys JSON
serialization of the payload; the digest is 64 characters over the
lowercase alphabet `0-9a-f`; with no secret the header is absent. -/
theorem webhook_signature_header (payload : Json) (secret : String)
    (hs : secret ≠ "") :
    dictGet (send_webhook_headers payload (some secret))
        "X-Webhook-Signature" =
      some ("sha256=" ++ hexOfBytes (hmacSha256 (utf8Encode secret)
        (utf8Encode (jsonDumps payload)))) ∧
    (∀ c ∈ (hexOfBytes (hmacSha256 (utf8Encode secret)
        (utf8Encode (jsonDumps payload)))).toList,
      c ∈ "0123456789abcdef".toList) ∧
    (hexOfBytes (hmacSha256 (utf8Encode secret)
        (utf8Encode (jsonDumps payload)))).toList.length = 64 ∧
    dictGet (send_webhook_headers payload none) "X-Webhook-Signature" =
      none := by
  refine ⟨?_, hexOfBytes_lowercase _, ?_, ?_⟩
  · have ht : secretTruthy (some secret) = true := by
      simp [secretTruthy, hs]
    rw [send_webhook_headers, if_pos ht,
      dictInsert_append_of_not_mem _ _ _ (by decide)]
    have e1 : (("Content-Type" : String) == "X-Webhook-Signature") = false := by
      decide
    have e2 : (("User-Agent" : String) == "X-Webhook-Signature") = false := by
      decide
    simp [dictGet, webhookBaseHeaders, List.find?_cons, e1, e2,
      webhookSignature]
  · rw [hexOfBytes_length, hmacSha256_length]
  · rw [send_webhook_headers, if_neg (by decide : ¬ secretTruthy none = true)]
    decide

/-- C4 witness: the signature header at a concrete payload and the
secret `"s3cret"`. -/
theorem webhook_signature_header_witness :
    dictGet (send_webhook_headers
        (Json.obj [("event", Json.str "council.completed")]) (some "s3cret"))
        "X-Webhook-Signature" =
      some ("sha256=" ++ hexOfBytes (hmacSha256 (utf8Encode "s3cret")
        (utf8Encode (jsonDumps
          (Json.obj [("event", Json.str "council.completed")]))))) ∧
    (∀ c ∈ (hexOfBytes (hmacSha256 (utf8Encode "s3cret")
        (utf8Encode (jsonDumps
          (Json.obj [("event", Json.str "council.completed")]))))).toList,
      c ∈ "0123456789abcdef".toList) ∧
    (hexOfBytes (hmacSha256 (utf8Encode "s3cret")
        (utf8Encode (jsonDumps
          (Json.obj [("event", Json.str "council.completed")]))))).toList.length
      = 64 ∧
    dictGet (send_webhook_headers
        (Json.obj [("event", Json.str "council.completed")]) none)
        "X-Webhook-Signature" = none :=
  webhook_signature_header (Json.obj [("event", Json.str "council.completed")])
    "s3cret" (by decide)

theorem pySplitF_ne_nil (sep : List Char) :
    ∀ (fuel : Nat) (s : List Char), pySplitF sep fuel s ≠ [] := by
  intro fuel s
  cases fuel with
  | zero => simp [pySplitF]
  | succ fuel =>
    unfold pySplitF
    cases hf : firstIdxOf sep s <;> simp

theorem pySplitF_headD (sep : List Char) :
    ∀ (fuel : Nat) (s : List Char), 1 ≤ fuel →
      (pySplitF sep fuel s).headD [] =
        (match firstIdxOf sep s with
         | some j => s.take j
         | none => s) := by
  intro fuel s h
  cases fuel with
  | zero => omega
  | succ fuel =>
    unfold pySplitF
    cases hf : firstIdxOf sep s <;> simp

theorem firstIdxOf_ne_nil {pat s : List Char} {i : Nat}
    (hpat : pat ≠ []) (h : firstIdxOf pat s = some i) : s ≠ [] := by
  intro hs
  subst hs
  unfold firstIdxOf at h
  rw [if_neg (by simpa using hpat)] at h
  exact Option.noConfusion h

theorem pySplit_parts (s : List Char) (i : Nat)
    (hf : firstIdxOf FINAL_MARKER s = some i) :
    pySplit s FINAL_MARKER =
      s.take i :: pySplitF FINAL_MARKER s.length
        (s.drop (i + FINAL_MARKER.length)) := by
  unfold pySplit
  simp only [pySplitF, hf]

theorem pySplit_length_two (s : List Char) (i : Nat)
    (hf : firstIdxOf FINAL_MARKER s = some i) :
    2 ≤ (pySplit s FINAL_MARKER).length := by
  rw [pySplit_parts s i hf]
  have h := pySplitF_ne_nil FINAL_MARKER s.length
    (s.drop (i + FINAL_MARKER.length))
  rw [List.length_cons]
  have : 1 ≤ (pySplitF FINAL_MARKER s.length
      (s.drop (i + FINAL_MARKER.length))).length := by
    cases hx : pySplitF FINAL_MARKER s.length
        (s.drop (i + FINAL_MARKER.length)) with
    | nil => exact absurd hx h
    | cons a t => simp
  omega

theorem pySplit_region (s : List Char) (i : Nat)
    (hf : firstIdxOf FINAL_MARKER s = some i) :
    (pySplit s FINAL_MARKER).getD 1 [] = regionAfterMarker s := by
  rw [pySplit_parts s i hf]
  have hs : s ≠ [] := firstIdxOf_ne_nil (by decide) hf
  have hlen : 1 ≤ s.length := by
    cases s with
    | nil => exact absurd rfl hs
    | cons a t => simp
  show (pySplitF FINAL_MARKER s.length
      (s.drop (i + FINAL_MARKER.length))).getD 0 [] = _
  have hd : ∀ (l : List (List Char)), l.getD 0 [] = l.headD [] := by
    intro l
    cases l <;> rfl
  rw [hd, pySplitF_headD FINAL_MARKER s.length _ hlen]
  unfold regionAfterMarker
  rw [hf]

theorem drop_length_takeWhile (p : Char → Bool) :
    ∀ l : List Char, l.drop (l.takeWhile p).length = l.dropWhile p := by
  intro l
  induction l with
  | nil => rfl
  | cons c rest ih =>
    by_cases hc : p c = true
    · simp only [List.takeWhile_cons, hc, if_true, List.length_cons,
        List.drop_succ_cons, List.dropWhile_cons, ih]
    · have hc' : p c = false := by simpa using hc
      simp only [List.takeWhile_cons, hc', Bool.false_eq_true, if_false,
        List.length_nil, List.drop_zero, List.dropWhile_cons]

theorem take_length_takeWhile (p : Char → Bool) (l : List Char) :
    l.take (l.takeWhile p).length = l.takeWhile p := by
  have h := List.takeWhile_prefix (l := l) (p := p)
  exact (List.prefix_iff_eq_take.mp h).symm

theorem plainHere_head_ne {c : Char} (t : List Char) (h : c ≠ 'R') :
    plainHere (c :: t) = false := by
  unfold plainHere
  have hpre : RESPONSE_SP.isPrefixOf (c :: t) = false := by
    show (('R' == c) && ("esponse ".toList.isPrefixOf t)) = false
    have hc : ('R' == c) = false := by
      simp only [beq_eq_false_iff_ne, ne_eq]
      exact fun hh => h hh.symm
    rw [hc, Bool.false_and]
  rw [hpre, Bool.false_and]

theorem matchNumberedLen_shape {s : List Char} {n : Nat}
    (h : matchNumberedLen s = some n) :
    ∃ ds ws u rest, s = ds ++ '.' :: (ws ++ (RESPONSE_SP ++ u :: rest)) ∧
      ds ≠ [] ∧ (∀ c ∈ ds, isDigit09 c = true) ∧
      (∀ c ∈ ws, pyIsSpace c = true) ∧ isUpperAZ u = true ∧
      n = ds.length + 1 + ws.length + 10 := by
  unfold matchNumberedLen at h
  by_cases he : (s.takeWhile isDigit09).isEmpty
  · rw [if_pos he] at h
    exact absurd h (by simp)
  · rw [if_neg he] at h
    split at h
    case neg.h_2 => exact absurd h (by simp)
    case neg.h_1 r2 heq =>
      simp only [] at h
      by_cases hp : plainHere (r2.drop (r2.takeWhile pyIsSpace).length) = true
      · rw [if_pos hp] at h
        have hn : n = (s.takeWhile isDigit09).length + 1 +
            (r2.takeWhile pyIsSpace).length + 10 := by
          exact (Option.some.inj h).symm
        unfold plainHere at hp
        rw [Bool.and_eq_true] at hp
        obtain ⟨hpre, hmatch⟩ := hp
        split at hmatch
        · rename_i u rest2 hequ
          refine ⟨s.takeWhile isDigit09, r2.takeWhile pyIsSpace, u, rest2,
            ?_, ?_, ?_, ?_, hmatch, hn⟩
          · have h1 : s = s.takeWhile isDigit09 ++ s.drop (s.takeWhile isDigit09).length := by
              conv_lhs => rw [← List.take_append_drop (s.takeWhile isDigit09).length s]
              rw [take_length_takeWhile]
            have h2 : r2 = r2.takeWhile pyIsSpace ++ r2.drop (r2.takeWhile pyIsSpace).length := by
              conv_lhs => rw [← List.take_append_drop (r2.takeWhile pyIsSpace).length r2]
              rw [take_length_takeWhile]
            have h3 : r2.drop (r2.takeWhile pyIsSpace).length =
                RESPONSE_SP ++ (u :: rest2) := by
              have hpre' : RESPONSE_SP <+: r2.drop (r2.takeWhile pyIsSpace).length := by
                rw [← List.isPrefixOf_iff_prefix]
                exact hpre
              have h4 : (r2.drop (r2.takeWhile pyIsSpace).length).take 9 =
                  RESPONSE_SP := by
                rw [show (9 : Nat) = RESPONSE_SP.length from by decide]
                exact (List.prefix_iff_eq_take.mp hpre').symm
              conv_lhs => rw [← List.take_append_drop 9
                (r2.drop (r2.takeWhile pyIsSpace).length)]
              rw [h4, hequ]
            calc s = s.takeWhile isDigit09 ++ s.drop (s.takeWhile isDigit09).length := h1
              _ = s.takeWhile isDigit09 ++ '.' :: r2 := by rw [heq]
              _ = s.takeWhile isDigit09 ++ '.' ::
                    (r2.takeWhile pyIsSpace ++
                      r2.drop (r2.takeWhile pyIsSpace).length) := by
                  conv_lhs => rw [h2]
              _ = s.takeWhile isDigit09 ++ '.' ::
                    (r2.takeWhile pyIsSpace ++ (RESPONSE_SP ++ u :: rest2)) := by
                  rw [h3]
          · intro hnil
            rw [hnil] at he
            exact he rfl
          · intro c hc
            exact List.mem_takeWhile_imp hc
          · intro c hc
            exact List.mem_takeWhile_imp hc
        · exact absurd hmatch (by simp)
      · rw [if_neg hp] at h
        exact absurd h (by simp)

theorem plainHere_at_response (u : Char) (hu : isUpperAZ u = true)
    (rest : List Char) :
    plainHere (RESPONSE_SP ++ u :: rest) = true := by
  unfold plainHere
  have h1 : RESPONSE_SP.isPrefixOf (RESPONSE_SP ++ u :: rest) = true := by
    rw [List.isPrefixOf_iff_prefix]
    exact List.prefix_append _ _
  rw [h1, Bool.true_and]
  have h2 : (RESPONSE_SP ++ u :: rest).drop 9 = u :: rest := by
    rw [show (9 : Nat) = RESPONSE_SP.length from by decide]
    exact List.drop_left _ _
  rw [h2]
  exact hu

theorem searchPlain_skip {c : Char} (t : List Char) (h : c ≠ 'R') :
    searchPlain (c :: t) = searchPlain t := by
  simp only [searchPlain]
  rw [plainHere_head_ne t h]
  simp

theorem digit_ne_R {c : Char} (h : isDigit09 c = true) : c ≠ 'R' := by
  intro he
  subst he
  exact absurd h (by decide)

theorem space_ne_R {c : Char} (h : pyIsSpace c = true) : c ≠ 'R' := by
  intro he
  subst he
  exact absurd h (by decide)

theorem searchPlain_over_spaces (u : Char) (hu : isUpperAZ u = true) :
    ∀ ws : List Char, (∀ c ∈ ws, pyIsSpace c = true) →
      searchPlain (ws ++ (RESPONSE_SP ++ [u])) = some (RESPONSE_SP ++ [u]) := by
  intro ws
  induction ws with
  | nil =>
    intro _
    show searchPlain (RESPONSE_SP ++ [u]) = _
    rw [show RESPONSE_SP ++ [u] = 'R' :: ("esponse ".toList ++ [u]) from rfl]
    simp only [searchPlain]
    have hph : plainHere ('R' :: ("esponse ".toList ++ [u])) = true :=
      plainHere_at_response u hu []
    rw [hph]
    simp only [if_pos]
    rw [List.take_of_length_le (by simp)]
  | cons c rest ih =>
    intro hws
    rw [List.cons_append,
      searchPlain_skip _ (space_ne_R (hws c (List.mem_cons_self c rest)))]
    exact ih (fun x hx => hws x (List.mem_cons_of_mem c hx))

theorem searchPlain_skip_all :
    ∀ (l t : List Char), (∀ c ∈ l, c ≠ 'R') →
      searchPlain (l ++ t) = searchPlain t := by
  intro l
  induction l with
  | nil => intro t _; rfl
  | cons c rest ih =>
    intro t hl
    rw [List.cons_append,
      searchPlain_skip _ (hl c (List.mem_cons_self c rest))]
    exact ih t (fun x hx => hl x (List.mem_cons_of_mem c hx))

theorem searchPlain_over_match {s : List Char} {n : Nat}
    (h : matchNumberedLen s = some n) :
    searchPlain (s.take n) = some ((s.take n).drop ((s.take n).length - 10)) ∧
    (s.take n).length = n := by
  obtain ⟨ds, ws, u, rest, hs, hdne, hds, hws, hu, hn⟩ :=
    matchNumberedLen_shape h
  have hslen : n ≤ s.length := by
    rw [hs]
    simp [RESPONSE_SP, hn]
    try omega
  have htake : s.take n = ds ++ '.' :: (ws ++ (RESPONSE_SP ++ [u])) := by
    rw [hs, hn]
    rw [show ds.length + 1 + ws.length + 10 =
      ds.length + (1 + ws.length + 10) from by omega]
    rw [List.take_append]
    congr 1
    rw [show (1 + ws.length + 10 : Nat) = (ws.length + 10) + 1 from by omega]
    rw [List.take_succ_cons]
    congr 1
    rw [List.take_append]
    congr 1
  have hlen : (s.take n).length = n := by
    rw [List.length_take]
    omega
  have hdrop : (s.take n).drop ((s.take n).length - 10) =
      RESPONSE_SP ++ [u] := by
    rw [hlen, htake, hn]
    rw [show ds.length + 1 + ws.length + 10 - 10 =
      ds.length + (1 + ws.length) from by omega]
    rw [List.drop_append]
    rw [show (1 + ws.length : Nat) = ws.length + 1 from by omega]
    rw [List.drop_succ_cons]
    exact List.drop_left _ _
  refine ⟨?_, hlen⟩
  rw [hdrop, htake]
  rw [searchPlain_skip_all ds _ (fun c hc => digit_ne_R (hds c hc)),
    searchPlain_skip _ (by decide)]
  exact searchPlain_over_spaces u hu ws hws

theorem findallNumberedF_members :
    ∀ (fuel : Nat) (s m : List Char), m ∈ findallNumberedF fuel s →
      ∃ s' n, matchNumberedLen s' = some n ∧ m = s'.take n := by
  intro fuel
  induction fuel with
  | zero => intro s m hm; exact absurd hm (by simp [findallNumberedF])
  | succ fuel ih =>
    intro s m hm
    cases s with
    | nil => exact absurd hm (by simp [findallNumberedF])
    | cons c rest =>
      unfold findallNumberedF at hm
      split at hm
      · rename_i n hn
        rcases List.mem_cons.mp hm with rfl | hm2
        · exact ⟨c :: rest, n, hn, rfl⟩
        · exact ih _ _ hm2
      · exact ih _ _ hm

theorem searchPlain_findallNumbered {r m : List Char}
    (hm : m ∈ findallNumbered r) :
    searchPlain m = some (m.drop (m.length - 10)) := by
  obtain ⟨s', n, hmatch, rfl⟩ := findallNumberedF_members r.length r m hm
  exact (searchPlain_over_match hmatch).1

theorem filterMap_eq_map_of_forall {α β : Type} (l : List α)
    (f : α → Option β) (g : α → β) (h : ∀ x ∈ l, f x = some (g x)) :
    l.filterMap f = l.map g := by
  induction l with
  | nil => rfl
  | cons a t ih =>
    rw [List.filterMap_cons, h a (List.mem_cons_self a t), List.map_cons]
    rw [ih (fun x hx => h x (List.mem_cons_of_mem a hx))]

/-- C5 amended -/
theorem parse_ranking_spec_eq (s : List Char) :
    parseRankingChars s = parseRankingSpec s := by
  unfold parseRankingChars parseRankingSpec
  cases hf : firstIdxOf FINAL_MARKER s with
  | none =>
    have hc : containsSeq FINAL_MARKER s = false := by
      simp [containsSeq, hf]
    rw [hc]
    simp
  | some i =>
    have hc : containsSeq FINAL_MARKER s = true := by
      simp [containsSeq, hf]
    rw [hc]
    simp only [if_pos]
    rw [if_pos (pySplit_length_two s i hf)]
    rw [pySplit_region s i hf]
    have hnum : (findallNumbered (regionAfterMarker s)).filterMap searchPlain =
        numberedLabels (regionAfterMarker s) := by
      unfold numberedLabels
      exact filterMap_eq_map_of_forall _ _ _
        (fun m hm => searchPlain_findallNumbered hm)
    cases hn : findallNumbered (regionAfterMarker s) with
    | nil =>
      simp [numberedLabels, hn]
    | cons a t =>
      have h2 : (numberedLabels (regionAfterMarker s)).isEmpty = false := by
        unfold numberedLabels
        rw [hn]; rfl
      rw [h2]
      simp only [List.isEmpty_cons, Bool.not_false, if_pos,
        Bool.false_eq_true, if_false]
      rw [← hn, hnum]

/-- C5 (amended): `parse_ranking_from_text` implements the ordered
fallback in which the marker region is the text between the first
`FINAL RANKING:` occurrence and the next one (or the end of the text):
the label part of each numbered match in that region; if none, every
plain `Response <letter>` occurrence there; with no marker, every plain
occurrence in the whole text. -/
theorem parse_ranking_matches_spec (s : String) :
    parse_ranking_from_text s = (parseRankingSpec s.toList).map List.asString := by
  unfold parse_ranking_from_text
  rw [parse_ranking_spec_eq]

/-- C5 counterexample: on a text with two `FINAL RANKING:` markers the
code only parses the region before the second marker (yielding
`Response A`), while the claim's region "after the first marker" would
also yield `Response B`. -/
theorem parse_region_counterexample :
    parse_ranking_from_text
      "FINAL RANKING: 1. Response A FINAL RANKING: 1. Response B" =
      ["Response A"] ∧
    (parseRankingClaim
      "FINAL RANKING: 1. Response A FINAL RANKING: 1. Response B".toList).map
      List.asString = ["Response A", "Response B"] := by
  constructor <;> decide


/-- C9 witness: the frame-and-trim property at a concrete one-job store
and its summary. -/
theorem list_jobs_frame_and_trim_witness :
    ∃ j ∈ [JobRec.mk "j1" JobStatus.pending "hello" "u" "t"
        none none none none],
      (j.query.toList.length ≤ 100 →
        (JobInfo.mk "j1" JobStatus.pending "hello" "u" "t"
          none none none none).query = j.query) ∧
      (100 < j.query.toList.length →
        (JobInfo.mk "j1" JobStatus.pending "hello" "u" "t"
          none none none none).query =
          (j.query.toList.take 100).asString ++ "...") :=
  (list_jobs_frame_and_trim [JobRec.mk "j1" JobStatus.pending "hello" "u" "t"
      none none none none] 50 none).2
    (JobInfo.mk "j1" JobStatus.pending "hello" "u" "t" none none none none)
    (by decide)

end LLMCouncil
